import Mathlib

/-!
Verification of the consent-lifecycle engine (`src/`): the date rules,
the inactivity decision ladder, the re-consent and purge reconciliation
runs, the audit trail, and the compliance metrics.

Modelling conventions.
* Timestamps are milliseconds since the Unix epoch (`Int`), interpreted in
  UTC; the JavaScript `Date` mutators `setMonth`/`setDate` act on the UTC
  calendar under this assumption.
* The runtime's `new Date(string)` parser and `toISOString` formatter are
  not part of the repository; they are passed in as function parameters
  (`jsParse`, `fmt`) wherever the source calls them.
* External side effects (audit writes, contact updates, batch updates,
  deletions) are recorded as an explicit event trace (`Event`), and the
  external store's fallible operations are driven by caller-supplied
  outcome functions, so that error-handling paths are represented exactly.
* Exact rational arithmetic (`ℚ`) stands in for JavaScript numbers in the
  compliance-score formula.
-/

namespace DateUtils

/-- Days-to-civil-date conversion (proleptic Gregorian calendar), the
calendar the JavaScript `Date` UTC accessors expose.  Returns
(year, month ∈ 1..12, day ∈ 1..31) for a count of days since 1970-01-01. -/
def civilFromDays (z0 : Int) : Int × Int × Int :=
  let z := z0 + 719468
  let era := Int.fdiv z 146097
  let doe := z - era * 146097
  let yoe := Int.fdiv (doe - Int.fdiv doe 1460 + Int.fdiv doe 36524 - Int.fdiv doe 146096) 365
  let y := yoe + era * 400
  let doy := doe - (365 * yoe + Int.fdiv yoe 4 - Int.fdiv yoe 100)
  let mp := Int.fdiv (5 * doy + 2) 153
  let d := doy - Int.fdiv (153 * mp + 2) 5 + 1
  let m := mp + (if mp < 10 then 3 else -9)
  (y + (if m ≤ 2 then 1 else 0), m, d)

/-- Civil-date-to-days conversion, inverse direction of `civilFromDays`. -/
def daysFromCivil (y0 m d : Int) : Int :=
  let y := y0 - (if m ≤ 2 then 1 else 0)
  let era := Int.fdiv y 400
  let yoe := y - era * 400
  let mp := Int.fmod (m + 9) 12
  let doy := Int.fdiv (153 * mp + 2) 5 + d - 1
  let doe := yoe * 365 + Int.fdiv yoe 4 - Int.fdiv yoe 100 + doy
  era * 146097 + doe - 719468

def msPerDay : Int := 86400000

/-- `addMonths` (src/src/utils/dateUtils.ts): `result.setMonth(result.getMonth() + months)`.
JavaScript `setMonth` keeps the day-of-month and lets it overflow into the
following month (no clamping), which on day counts is
first-of-target-month plus (day − 1); the time of day is preserved. -/
def addMonths (t : Int) (months : Int) : Int :=
  let day := Int.fdiv t msPerDay
  let msOfDay := Int.fmod t msPerDay
  let c := civilFromDays day
  let total := c.1 * 12 + (c.2.1 - 1) + months
  let y2 := Int.fdiv total 12
  let m2 := Int.fmod total 12 + 1
  (daysFromCivil y2 m2 1 + (c.2.2 - 1)) * msPerDay + msOfDay

/-- `addDays` (src/src/utils/dateUtils.ts): `result.setDate(result.getDate() + days)`;
on a UTC timeline this is exactly adding `days` × 86 400 000 ms. -/
def addDays (t : Int) (days : Int) : Int :=
  t + days * msPerDay

/-- `daysBetween` (src/src/utils/dateUtils.ts):
`Math.floor(Math.abs(date2 - date1) / oneDay)`. -/
def daysBetween (t1 t2 : Int) : Nat :=
  (t2 - t1).natAbs / 86400000

/-- `parseDate` (src/src/utils/dateUtils.ts): a missing or empty string is
falsy and yields null; otherwise `new Date(s)` is built and a NaN time
yields null.  `jsParse` is the runtime's date parser, returning `none`
exactly when the parse produces an invalid date. -/
def parseDate (jsParse : String → Option Int) : Option String → Option Int
  | none => none
  | some s => if s = "" then none else jsParse s

/-- `calculateConsentExpiry` (src/src/utils/dateUtils.ts). -/
def calculateConsentExpiry (consentDate : Int) (expiryMonths : Int) : Int :=
  addMonths consentDate expiryMonths

/-- `isConsentExpiring` (src/src/utils/dateUtils.ts); `now` stands for the
`new Date()` the source takes internally. -/
def isConsentExpiring (consentDate : Option Int) (expiryMonths : Int)
    (gracePeriodDays : Int) (now : Int) : Bool :=
  match consentDate with
  | none => true
  | some cd =>
    let expiryDate := calculateConsentExpiry cd expiryMonths
    let gracePeriodStart := addDays now gracePeriodDays
    decide (expiryDate ≤ gracePeriodStart)

/-- `isInactive` (src/src/utils/dateUtils.ts). -/
def isInactive (lastActivityDate : Option Int) (inactivityThresholdMonths : Int)
    (now : Int) : Bool :=
  match lastActivityDate with
  | none => true
  | some lad =>
    let thresholdDate := addMonths now (-inactivityThresholdMonths)
    decide (lad < thresholdDate)

end DateUtils

/-- `ConsentAction` (src/src/types/consent.ts). -/
inductive ConsentAction
  | granted
  | revoked
  | renewed
  | expired
  | purged
deriving DecidableEq, Repr

/-- `InactivityAction` (src/src/types/consent.ts). -/
inductive InactivityAction
  | no_action
  | send_reminder
  | flag_for_review
  | schedule_purge
  | purge
deriving DecidableEq, Repr

/-- The consent-relevant slice of `HubSpotContactProperties`
(src/src/types/hubspot.ts); absent properties are `none`. -/
structure ContactProps where
  email : Option String := none
  gdpr_consent_status : Option String := none
  gdpr_consent_date : Option String := none
  last_activity_date : Option String := none
  reconsent_required : Option String := none
  scheduled_purge_date : Option String := none
deriving DecidableEq, Repr

/-- `HubSpotContact` (src/src/types/hubspot.ts), restricted to the fields
the engine reads. -/
structure HubSpotContact where
  id : String
  properties : ContactProps
deriving DecidableEq, Repr

/-- Observable side effects on the external store and the audit trail, in
program order.  `auditWrite` stands for a `consentAuditService.recordConsentChange`
call (whose internal best-effort mirror never throws, see `AuditService`). -/
inductive Event
  | auditWrite (contactId : String) (action : ConsentAction) (category : String)
  | contactUpdate (contactId : String) (props : List (String × String))
  | batchUpdate (inputs : List (String × List (String × String)))
  | contactDelete (contactId : String)
deriving DecidableEq, Repr

def Event.isAuditWrite : Event → Bool
  | .auditWrite _ _ _ => true
  | _ => false

namespace InactivityService

/-- `InactivityCheckResult` (src/src/types/consent.ts): `daysSinceActivity`
is the reported number, with −1 standing for the non-finite case. -/
structure InactivityCheckResult where
  contactId : String
  email : String
  lastActivityDate : Option Int
  daysSinceActivity : Int
  isInactive : Bool
  recommendedAction : InactivityAction
deriving DecidableEq, Repr

/-- The JavaScript comparison `daysSinceActivity > x` where
`daysSinceActivity` may be `Infinity` (modelled `none`). -/
def edaysGT : Option Nat → Int → Bool
  | none, _ => true
  | some n, x => decide ((n : Int) > x)

/-- `InactivityService.determineAction` (src/src/services/inactivityService.ts).
`daysSinceActivity` is `none` for `Infinity` (no recorded activity). -/
def determineAction (inactivityThresholdMonths : Nat)
    (daysSinceActivity : Option Nat) (isContactInactive : Bool) : InactivityAction :=
  if !isContactInactive then
    .no_action
  else
    let thresholdDays : Int := (inactivityThresholdMonths : Int) * 30
    if edaysGT daysSinceActivity thresholdDays then
      .schedule_purge
    else if edaysGT daysSinceActivity (thresholdDays - 30) then
      .flag_for_review
    else if edaysGT daysSinceActivity (thresholdDays - 60) then
      .send_reminder
    else
      .no_action

/-- `InactivityService.checkContactInactivity`
(src/src/services/inactivityService.ts); `now` is the `new Date()` taken
inside, `jsParse` the runtime date parser. -/
def checkContactInactivity (jsParse : String → Option Int)
    (inactivityThresholdMonths : Nat) (now : Int)
    (contact : HubSpotContact) : InactivityCheckResult :=
  let lastActivityDate := DateUtils.parseDate jsParse contact.properties.last_activity_date
  let daysSinceActivity : Option Nat :=
    lastActivityDate.map (fun lad => DateUtils.daysBetween lad now)
  let isContactInactive :=
    DateUtils.isInactive lastActivityDate (inactivityThresholdMonths : Int) now
  { contactId := contact.id
    email := contact.properties.email.getD ""
    lastActivityDate := lastActivityDate
    daysSinceActivity := match daysSinceActivity with
      | some n => (n : Int)
      | none => -1
    isInactive := isContactInactive
    recommendedAction :=
      determineAction inactivityThresholdMonths daysSinceActivity isContactInactive }

end InactivityService

/-- Urgency ranking of the inactivity ladder's outcomes, used to state the
spec's monotone-escalation property. -/
def actionRank : InactivityAction → Nat
  | .no_action => 0
  | .send_reminder => 1
  | .flag_for_review => 2
  | .schedule_purge => 3
  | .purge => 4

namespace ReconsentService

/-- Result shape of `ReconsentWorkflowService.checkReconsentRequired`
(src/src/services/reconsentWorkflowService.ts); `reason` is the
`ReconsentReason` string union. -/
structure ReconsentCheck where
  required : Bool
  reason : Option String
  expiryDate : Option Int
  daysUntilExpiry : Option Int
deriving DecidableEq, Repr

/-- `Math.ceil` of a millisecond difference divided by one day. -/
def ceilDays (diff : Int) : Int :=
  -(Int.fdiv (-diff) DateUtils.msPerDay)

/-- `ReconsentWorkflowService.checkReconsentRequired`
(src/src/services/reconsentWorkflowService.ts). -/
def checkReconsentRequired (jsParse : String → Option Int)
    (consentExpiryMonths : Nat) (gracePeriodDays : Nat) (now : Int)
    (contact : HubSpotContact) : ReconsentCheck :=
  match DateUtils.parseDate jsParse contact.properties.gdpr_consent_date with
  | none =>
    { required := true
      reason := some "consent_expiry"
      expiryDate := none
      daysUntilExpiry := none }
  | some consentDate =>
    let expiryDate := DateUtils.calculateConsentExpiry consentDate consentExpiryMonths
    let daysUntilExpiry := ceilDays (expiryDate - now)
    let isExpiring := DateUtils.isConsentExpiring (some consentDate)
      (consentExpiryMonths : Int) (gracePeriodDays : Int) now
    { required := isExpiring
      reason := if isExpiring then some "consent_expiry" else none
      expiryDate := some expiryDate
      daysUntilExpiry := some (if daysUntilExpiry > 0 then daysUntilExpiry else 0) }

end ReconsentService

namespace AuditService

/-- `ConsentAuditRecord` (src/src/types/consent.ts). -/
structure AuditRecord where
  id : String
  contactId : String
  action : ConsentAction
  category : String
  previousValue : Option Bool
  newValue : Bool
  source : String
  timestamp : Int
  ipAddress : Option String := none
  userAgent : Option String := none
  notes : Option String := none
deriving DecidableEq, Repr

/-- The in-process audit index (`ConsentAuditService.auditRecords`), a map
from contact id to that contact's ordered record list. -/
def AuditLog := String → List AuditRecord

/-- Environment of the best-effort HubSpot mirror write: the outcomes of
the external `getContact` (yielding the `consent_audit_log` property) and
`updateContact` calls, and the runtime's `JSON.parse` for the stored log
(`none` when parsing throws). -/
structure MirrorEnv where
  getContactLog : String → Except String (Option String)
  parseLog : String → Option (List AuditRecord)
  updateOutcome : String → Except String Unit

/-- The body of `ConsentAuditService.updateHubSpotAuditLog`
(src/src/services/consentAuditService.ts) before its enclosing try/catch:
read the contact's stored log, parse it (a parse failure falls back to the
empty log), append the new record, keep the last 100 entries, and write it
back.  Any raised error is the `Except.error` case. -/
def updateHubSpotAuditLogAttempt (env : MirrorEnv) (contactId : String)
    (newRecord : AuditRecord) : Except String (List AuditRecord) := do
  let stored ← env.getContactLog contactId
  let existingLog : List AuditRecord :=
    match stored with
    | none => []
    | some s => (env.parseLog s).getD []
  let appended := existingLog ++ [newRecord]
  let trimmed := if appended.length > 100 then appended.drop (appended.length - 100) else appended
  let _ ← env.updateOutcome contactId
  pure trimmed

/-- `ConsentAuditService.updateHubSpotAuditLog`: the attempt wrapped in the
catch-all that logs and swallows every failure, so the caller always gets
`()` back. -/
def updateHubSpotAuditLog (env : MirrorEnv) (contactId : String)
    (newRecord : AuditRecord) : Unit :=
  match updateHubSpotAuditLogAttempt env contactId newRecord with
  | .ok _ => ()
  | .error _ => ()

/-- `ConsentAuditService.recordConsentChange`
(src/src/services/consentAuditService.ts): build the record (`freshId` is
the `uuidv4()` value, `now` the `new Date()`), append it to the
in-process per-contact list, run the best-effort mirror, and return the
record. -/
def recordConsentChange (env : MirrorEnv) (freshId : String) (now : Int)
    (log : AuditLog) (contactId : String) (action : ConsentAction)
    (category : String) (previousValue : Option Bool) (newValue : Bool)
    (source : String) (notes : Option String) : AuditLog × AuditRecord :=
  let record : AuditRecord :=
    { id := freshId
      contactId := contactId
      action := action
      category := category
      previousValue := previousValue
      newValue := newValue
      source := source
      timestamp := now
      notes := notes }
  let log2 : AuditLog := fun c =>
    if c = contactId then log c ++ [record] else log c
  let _mirror := updateHubSpotAuditLog env contactId record
  (log2, record)

end AuditService

namespace PurgeService

/-- Outcome of `PurgeService.purgeContact`
(src/src/services/dashboardService.ts, purge service section). -/
structure PurgeOutcome where
  success : Bool
  contactId : String
  reason : String
  auditRetained : Bool
deriving DecidableEq, Repr

/-- The external `deleteContact` behaviour: `none` means the archive call
succeeds, `some msg` that it throws an error with message `msg`. -/
def DeleteEnv := String → Option String

/-- `PurgeService.purgeContact`: when `retainAuditLog`, record the `purged`
audit entry first, then delete the contact.  A delete failure propagates
(`Except.error`), leaving the already-performed audit write in the trace. -/
def purgeContact (env : DeleteEnv) (contactId : String) (reason : String)
    (retainAuditLog : Bool) : List Event × Except String PurgeOutcome :=
  let auditTrace : List Event :=
    if retainAuditLog then [Event.auditWrite contactId ConsentAction.purged "all"] else []
  match env contactId with
  | some errMsg => (auditTrace, .error errMsg)
  | none =>
    (auditTrace ++ [Event.contactDelete contactId],
     .ok { success := true, contactId := contactId, reason := reason,
           auditRetained := retainAuditLog })

/-- One entry of a purge batch's `results` list. -/
structure PerContactResult where
  contactId : String
  success : Bool
  error : Option String
deriving DecidableEq, Repr

/-- Aggregate result of `batchPurgeContacts` / `executeScheduledPurges`. -/
structure PurgeBatchResult where
  purged : Nat
  failed : Nat
  results : List PerContactResult
deriving DecidableEq, Repr

/-- `PurgeService.batchPurgeContacts`: per contact, try `purgeContact`
(audit retention on); a success is counted in `purged`, a caught error is
counted in `failed` with its message; the loop always continues. -/
def batchPurgeContacts (env : DeleteEnv) (contactIds : List String)
    (reason : String) : List Event × PurgeBatchResult :=
  match contactIds with
  | [] => ([], { purged := 0, failed := 0, results := [] })
  | contactId :: rest =>
    let pc := purgeContact env contactId reason true
    let restRun := batchPurgeContacts env rest reason
    match pc.2 with
    | .ok _ =>
      (pc.1 ++ restRun.1,
       { purged := restRun.2.purged + 1
         failed := restRun.2.failed
         results := { contactId := contactId, success := true, error := none } :: restRun.2.results })
    | .error msg =>
      (pc.1 ++ restRun.1,
       { purged := restRun.2.purged
         failed := restRun.2.failed + 1
         results := { contactId := contactId, success := false, error := some msg } :: restRun.2.results })

/-- `PurgeService.getContactsDueForPurge`: a single `searchContacts` call
with filter `scheduled_purge_date ≤ now` and `limit: 100`; the external
search API returns the first page of at most `limit` matches and the code
takes `response.results` without following any cursor.  `dueContacts` is
the full, ordered set of matching contacts held by the store. -/
def getContactsDueForPurge (dueContacts : List HubSpotContact) : List HubSpotContact :=
  dueContacts.take 100

/-- `PurgeService.executeScheduledPurges`: fetch the due contacts, then run
the same catch-per-contact loop as `batchPurgeContacts` with reason
`inactivity_24_months` and audit retention on (the two loop bodies in the
source are identical). -/
def executeScheduledPurges (env : DeleteEnv) (dueContacts : List HubSpotContact) :
    List Event × PurgeBatchResult :=
  batchPurgeContacts env ((getContactsDueForPurge dueContacts).map HubSpotContact.id)
    "inactivity_24_months"

end PurgeService

/-- The paginated full-population walk shared by the run modes
(`getAllContacts` with page size 100, do-while on the next cursor): each
iteration yields one page of up to 100 contacts and the loop ends when no
cursor remains, so the pages are the consecutive 100-chunks of the
population.  `fuel` is the structural bound (the population length). -/
def chunksAux (n : Nat) : Nat → List α → List (List α)
  | 0, _ => []
  | _, [] => []
  | fuel + 1, l => l.take n :: chunksAux n fuel (l.drop n)

/-- Consecutive chunks of size `n` of a list. -/
def chunks (n : Nat) (l : List α) : List (List α) :=
  chunksAux n l.length l

namespace ReconsentService

/-- `ReconsentRequest` (src/src/types/consent.ts). -/
structure ReconsentRequest where
  contactId : String
  email : String
  categories : List String
  reason : String
deriving DecidableEq, Repr

/-- The property assignment `batchTriggerReconsent` sends for each contact. -/
def reconsentBatchProps : List (String × String) :=
  [("reconsent_required", "yes"), ("gdpr_consent_status", "pending")]

/-- `ReconsentWorkflowService.batchTriggerReconsent`
(src/src/services/reconsentWorkflowService.ts): builds one batch input per
contact, issues `batchUpdateContacts` in chunks of 100, then builds the
request records.  It performs no audit writes. -/
def batchTriggerReconsent (contacts : List HubSpotContact) (reason : String) :
    List Event × List ReconsentRequest :=
  let batchInputs := contacts.map (fun c => (c.id, reconsentBatchProps))
  let events := (chunks 100 batchInputs).map Event.batchUpdate
  let requests := contacts.map (fun c =>
    { contactId := c.id
      email := c.properties.email.getD ""
      categories := ["marketing", "analytics", "personalization"]
      reason := reason : ReconsentRequest })
  (events, requests)

/-- `ReconsentWorkflowService.triggerReconsentWorkflow`
(src/src/services/reconsentWorkflowService.ts), the single-contact path:
marks the contact, then records an `expired` audit entry (the `reason`
only feeds the record's free-text notes, which the event omits). -/
def triggerReconsentWorkflow (contactId : String) (_reason : String) : List Event :=
  [Event.contactUpdate contactId reconsentBatchProps,
   Event.auditWrite contactId ConsentAction.expired "all"]

/-- `ReconsentWorkflowService.getContactsRequiringReconsent`
(src/src/services/reconsentWorkflowService.ts): paginates the full
population and keeps the contacts whose `checkReconsentRequired` is
`required`. -/
def getContactsRequiringReconsent (jsParse : String → Option Int)
    (consentExpiryMonths gracePeriodDays : Nat) (now : Int)
    (population : List HubSpotContact) : List HubSpotContact :=
  ((chunks 100 population).flatten).filter
    (fun c => (checkReconsentRequired jsParse consentExpiryMonths gracePeriodDays now c).required)

/-- Result shape of `runReconsentCheck`. -/
structure ReconsentRunResult where
  totalChecked : Nat
  requireReconsent : Nat
  triggered : Nat
deriving DecidableEq, Repr

/-- `ReconsentWorkflowService.runReconsentCheck`
(src/src/services/reconsentWorkflowService.ts). -/
def runReconsentCheck (jsParse : String → Option Int)
    (consentExpiryMonths gracePeriodDays : Nat) (now : Int)
    (population : List HubSpotContact) : List Event × ReconsentRunResult :=
  let contacts := getContactsRequiringReconsent jsParse consentExpiryMonths
    gracePeriodDays now population
  let needsTrigger := contacts.filter
    (fun c => c.properties.reconsent_required ≠ some "yes")
  ((batchTriggerReconsent needsTrigger "consent_expiry").1,
   { totalChecked := contacts.length
     requireReconsent := contacts.length
     triggered := needsTrigger.length })

end ReconsentService

namespace ConsentRoutes

/-- JavaScript object assignment `obj[key] = value` on a string-keyed
record kept as an insertion-ordered association list: an existing key is
overwritten in place, a new key is appended. -/
def objSet (props : List (String × String)) (key value : String) : List (String × String) :=
  if props.any (fun p => p.1 = key) then
    props.map (fun p => if p.1 = key then (key, value) else p)
  else
    props ++ [(key, value)]

/-- First-match lookup in such a record. -/
def objGet (props : List (String × String)) (key : String) : Option String :=
  (props.find? (fun p => p.1 = key)).map Prod.snd

/-- The category-consent property key `gdpr_${category}_consent`. -/
def categoryKey (category : String) : String :=
  "gdpr_" ++ category ++ "_consent"

/-- The loop of the grant handler: for each category, set
`gdpr_${category}_consent = 'granted'` on the pending property object and
record a `granted` audit entry (the timeline-event attempt is wrapped in
its own try/catch and writes nothing to the audit trail or the store). -/
def grantLoop (contactId : String) (source : String)
    (categories : List String) (props : List (String × String)) :
    List (String × String) × List Event :=
  match categories with
  | [] => (props, [])
  | category :: rest =>
    let props2 := objSet props (categoryKey category) "granted"
    let restRun := grantLoop contactId source rest props2
    (restRun.1, Event.auditWrite contactId ConsentAction.granted category :: restRun.2)

/-- `POST /consent/contact/:contactId/grant` (src/src/routes/consent.ts):
the initial property object literal, in source order. -/
def grantBaseProps (fmt : Int → String) (expiryMonths : Nat) (now : Int)
    (legalBasis source : String) : List (String × String) :=
  [("gdpr_consent_status", "granted"),
   ("gdpr_legal_basis", legalBasis),
   ("gdpr_consent_date", fmt now),
   ("gdpr_consent_expiry_date", fmt (DateUtils.addMonths now (expiryMonths : Int))),
   ("consent_source", source),
   ("reconsent_required", "no"),
   ("scheduled_purge_date", "")]

/-- The grant-consent entry point: build the property object (expiry =
`addMonths(now, config.consentExpiryMonths)`), run the per-category loop,
then issue the single `updateContact`.  `fmt` is the runtime's
`toISOString`. -/
def grantConsent (fmt : Int → String) (expiryMonths : Nat) (now : Int)
    (contactId : String) (categories : List String)
    (legalBasis source : String) : List Event :=
  let base := grantBaseProps fmt expiryMonths now legalBasis source
  let run := grantLoop contactId source categories base
  run.2 ++ [Event.contactUpdate contactId run.1]

end ConsentRoutes

namespace Dashboard

/-- The dashboard fields `calculateComplianceScore` reads
(src/src/services/dashboardService.ts); counts from the materialized
population, `consentCoverage` already computed by `getDashboardData`. -/
structure DashboardData where
  totalContacts : Nat
  contactsWithConsent : Nat
  contactsRequiringReconsent : Nat
  contactsInactive : Nat
  contactsScheduledForPurge : Nat
deriving DecidableEq, Repr

/-- `getDashboardData`'s consent coverage:
`withConsent / total * 100`, `0` for an empty population. -/
def consentCoverage (d : DashboardData) : ℚ :=
  if d.totalContacts > 0 then
    ((d.contactsWithConsent : ℚ) / (d.totalContacts : ℚ)) * 100
  else 0

/-- `DashboardService.calculateComplianceScore`
(src/src/services/dashboardService.ts): the weighted sum of the coverage
score and the three `(1 − count/total) * 100` scores, each taken as 100
for an empty population. -/
def calculateComplianceScore (d : DashboardData) : ℚ :=
  let lowReconsent : ℚ :=
    if d.totalContacts > 0 then
      (1 - (d.contactsRequiringReconsent : ℚ) / (d.totalContacts : ℚ)) * 100
    else 100
  let lowInactive : ℚ :=
    if d.totalContacts > 0 then
      (1 - (d.contactsInactive : ℚ) / (d.totalContacts : ℚ)) * 100
    else 100
  let noPendingPurge : ℚ :=
    if d.totalContacts > 0 then
      (1 - (d.contactsScheduledForPurge : ℚ) / (d.totalContacts : ℚ)) * 100
    else 100
  consentCoverage d * (4 / 10) + lowReconsent * (25 / 100) +
    lowInactive * (2 / 10) + noPendingPurge * (15 / 100)

/-- Modelled from the spec's words, for comparison with the code: each
percentage is count / total × 100, every percentage is 0 when the
population is empty, and the score is
0.4·coverage + 0.25·(100 − reconsentPct) + 0.2·(100 − inactivePct)
+ 0.15·(100 − purgePendingPct). -/
def specComplianceScore (d : DashboardData) : ℚ :=
  let pct (count : Nat) : ℚ :=
    if d.totalContacts = 0 then 0 else ((count : ℚ) / (d.totalContacts : ℚ)) * 100
  (4 / 10) * pct d.contactsWithConsent +
    (25 / 100) * (100 - pct d.contactsRequiringReconsent) +
    (2 / 10) * (100 - pct d.contactsInactive) +
    (15 / 100) * (100 - pct d.contactsScheduledForPurge)

end Dashboard

/-! ### Trace ordering: audit-before-delete -/

/-- A trace respects audit-before-delete when every `contactDelete` is
strictly preceded by a `purged` audit write for the same contact. -/
abbrev AuditBeforeDelete (tr : List Event) : Prop :=
  ∀ (c : String) (i : Nat), tr[i]? = some (Event.contactDelete c) →
    ∃ j, j < i ∧ tr[j]? = some (Event.auditWrite c ConsentAction.purged "all")

lemma auditBeforeDelete_nil : AuditBeforeDelete [] := by
  intro c i hi
  simp at hi

lemma auditBeforeDelete_append {t1 t2 : List Event}
    (h1 : AuditBeforeDelete t1) (h2 : AuditBeforeDelete t2) :
    AuditBeforeDelete (t1 ++ t2) := by
  intro c i hi
  rcases Nat.lt_or_ge i t1.length with hlt | hge
  · rw [List.getElem?_append_left hlt] at hi
    obtain ⟨j, hj, hjv⟩ := h1 c i hi
    exact ⟨j, hj, by rw [List.getElem?_append_left (Nat.lt_trans hj hlt)]; exact hjv⟩
  · rw [List.getElem?_append_right hge] at hi
    obtain ⟨j, hj, hjv⟩ := h2 c (i - t1.length) hi
    refine ⟨t1.length + j, by omega, ?_⟩
    rw [List.getElem?_append_right (by omega)]
    simpa using hjv

lemma auditBeforeDelete_auditOnly (cid : String) :
    AuditBeforeDelete [Event.auditWrite cid ConsentAction.purged "all"] := by
  intro c i hi
  match i with
  | 0 => simp at hi
  | n + 1 => simp at hi

lemma auditBeforeDelete_pair (cid : String) :
    AuditBeforeDelete
      [Event.auditWrite cid ConsentAction.purged "all", Event.contactDelete cid] := by
  intro c i hi
  match i with
  | 0 => simp at hi
  | 1 =>
    simp at hi
    exact ⟨0, Nat.zero_lt_one, by simp [hi]⟩
  | n + 2 => simp at hi

lemma purgeContact_auditBeforeDelete (env : PurgeService.DeleteEnv)
    (cid reason : String) :
    AuditBeforeDelete (PurgeService.purgeContact env cid reason true).1 := by
  cases henv : env cid with
  | some msg =>
    simpa [PurgeService.purgeContact, henv] using auditBeforeDelete_auditOnly cid
  | none =>
    simpa [PurgeService.purgeContact, henv] using auditBeforeDelete_pair cid

lemma batchPurgeContacts_auditBeforeDelete (env : PurgeService.DeleteEnv)
    (ids : List String) (reason : String) :
    AuditBeforeDelete (PurgeService.batchPurgeContacts env ids reason).1 := by
  induction ids with
  | nil => exact auditBeforeDelete_nil
  | cons cid rest ih =>
    have hblock := purgeContact_auditBeforeDelete env cid reason
    cases henv : env cid with
    | some msg =>
      simp only [PurgeService.batchPurgeContacts, PurgeService.purgeContact, henv] at hblock ⊢
      exact auditBeforeDelete_append hblock ih
    | none =>
      simp only [PurgeService.batchPurgeContacts, PurgeService.purgeContact, henv] at hblock ⊢
      exact auditBeforeDelete_append hblock ih

/-- C1: for every contact processed by a purge operation (`purgeContact`,
`executeScheduledPurges`, `batchPurgeContacts`), when audit retention is
not opted out (`retainAuditLog = true`), a `purged` audit record is
written for that contact strictly before the contact's deletion from the
external store; the delete never precedes the audit write. -/
theorem purge_audit_strictly_before_delete (env : PurgeService.DeleteEnv)
    (contactId reason : String) (retain : Bool) (h : retain = true)
    (ids : List String) (due : List HubSpotContact) :
    AuditBeforeDelete (PurgeService.purgeContact env contactId reason retain).1 ∧
    AuditBeforeDelete (PurgeService.batchPurgeContacts env ids reason).1 ∧
    AuditBeforeDelete (PurgeService.executeScheduledPurges env due).1 := by
  subst h
  exact ⟨purgeContact_auditBeforeDelete env contactId reason,
    batchPurgeContacts_auditBeforeDelete env ids reason,
    batchPurgeContacts_auditBeforeDelete env _ _⟩

/-- Witness for C1 at a concrete run: two contacts, the second one's
delete failing. -/
theorem purge_audit_strictly_before_delete_witness :
    AuditBeforeDelete
      (PurgeService.purgeContact (fun c => if c = "c2" then some "boom" else none)
        "c1" "user_request" true).1 ∧
    AuditBeforeDelete
      (PurgeService.batchPurgeContacts (fun c => if c = "c2" then some "boom" else none)
        ["c1", "c2"] "user_request").1 ∧
    AuditBeforeDelete
      (PurgeService.executeScheduledPurges (fun c => if c = "c2" then some "boom" else none)
        [{ id := "c1", properties := {} }, { id := "c2", properties := {} }]).1 :=
  purge_audit_strictly_before_delete (fun c => if c = "c2" then some "boom" else none)
    "c1" "user_request" true rfl ["c1", "c2"]
    [{ id := "c1", properties := {} }, { id := "c2", properties := {} }]

/-! ### Batch purge: per-contact failure isolation -/

lemma batchPurge_results_ids (env : PurgeService.DeleteEnv) (ids : List String)
    (reason : String) :
    ((PurgeService.batchPurgeContacts env ids reason).2.results).map
      PurgeService.PerContactResult.contactId = ids := by
  induction ids with
  | nil => rfl
  | cons cid rest ih =>
    cases henv : env cid <;>
      simp [PurgeService.batchPurgeContacts, PurgeService.purgeContact, henv, ih]

lemma batchPurge_purged_count (env : PurgeService.DeleteEnv) (ids : List String)
    (reason : String) :
    (PurgeService.batchPurgeContacts env ids reason).2.purged =
      (ids.filter (fun i => (env i).isNone)).length := by
  induction ids with
  | nil => rfl
  | cons cid rest ih =>
    cases henv : env cid <;>
      simp [PurgeService.batchPurgeContacts, PurgeService.purgeContact, henv, ih]

lemma batchPurge_failed_count (env : PurgeService.DeleteEnv) (ids : List String)
    (reason : String) :
    (PurgeService.batchPurgeContacts env ids reason).2.failed =
      (ids.filter (fun i => (env i).isSome)).length := by
  induction ids with
  | nil => rfl
  | cons cid rest ih =>
    cases henv : env cid <;>
      simp [PurgeService.batchPurgeContacts, PurgeService.purgeContact, henv, ih]

lemma batchPurge_failures_carry_message (env : PurgeService.DeleteEnv)
    (ids : List String) (reason : String) :
    ∀ r ∈ (PurgeService.batchPurgeContacts env ids reason).2.results,
      r.success = false → r.error.isSome = true := by
  induction ids with
  | nil => simp [PurgeService.batchPurgeContacts]
  | cons cid rest ih =>
    intro r hr hs
    cases henv : env cid with
    | some msg =>
      simp only [PurgeService.batchPurgeContacts, PurgeService.purgeContact, henv,
        List.mem_cons] at hr
      rcases hr with rfl | hr
      · rfl
      · exact ih r hr hs
    | none =>
      simp only [PurgeService.batchPurgeContacts, PurgeService.purgeContact, henv,
        List.mem_cons] at hr
      rcases hr with rfl | hr
      · simp at hs
      · exact ih r hr hs

lemma batchPurge_successes_processed (env : PurgeService.DeleteEnv)
    (ids : List String) (reason : String) :
    ∀ id ∈ ids, env id = none →
      Event.auditWrite id ConsentAction.purged "all" ∈
        (PurgeService.batchPurgeContacts env ids reason).1 ∧
      Event.contactDelete id ∈ (PurgeService.batchPurgeContacts env ids reason).1 := by
  induction ids with
  | nil => simp
  | cons cid rest ih =>
    intro id hmem hnone
    rcases List.mem_cons.mp hmem with rfl | hmem'
    · simp [PurgeService.batchPurgeContacts, PurgeService.purgeContact, hnone]
    · obtain ⟨h1, h2⟩ := ih id hmem' hnone
      cases henv : env cid <;>
        simp [PurgeService.batchPurgeContacts, PurgeService.purgeContact, henv,
          List.mem_append, h1, h2]

/-- C6: `batchPurgeContacts` never lets one contact's failure abort the
batch: every requested contact gets its own outcome entry in order,
`purged` counts exactly the successes, `failed` exactly the failures,
every failed entry carries an error message, and every contact whose
delete succeeds — also after a failing one — is fully purged (audit write
and delete present in the trace).  The final conjuncts run the spec's
scenario `[c1, c2, c3]` with `c2`'s delete failing. -/
theorem batchPurge_isolates_failures (env : PurgeService.DeleteEnv)
    (ids : List String) (reason : String) :
    ((PurgeService.batchPurgeContacts env ids reason).2.results).map
        PurgeService.PerContactResult.contactId = ids ∧
    (PurgeService.batchPurgeContacts env ids reason).2.purged =
      (ids.filter (fun i => (env i).isNone)).length ∧
    (PurgeService.batchPurgeContacts env ids reason).2.failed =
      (ids.filter (fun i => (env i).isSome)).length ∧
    (∀ r ∈ (PurgeService.batchPurgeContacts env ids reason).2.results,
      r.success = false → r.error.isSome = true) ∧
    (∀ id ∈ ids, env id = none →
      Event.auditWrite id ConsentAction.purged "all" ∈
        (PurgeService.batchPurgeContacts env ids reason).1 ∧
      Event.contactDelete id ∈ (PurgeService.batchPurgeContacts env ids reason).1) ∧
    (PurgeService.batchPurgeContacts
        (fun c => if c = "c2" then some "Delete failed" else none)
        ["c1", "c2", "c3"] "user_request").2 =
      { purged := 2, failed := 1,
        results := [{ contactId := "c1", success := true, error := none },
                    { contactId := "c2", success := false, error := some "Delete failed" },
                    { contactId := "c3", success := true, error := none }] } ∧
    (PurgeService.batchPurgeContacts
        (fun c => if c = "c2" then some "Delete failed" else none)
        ["c1", "c2", "c3"] "user_request").1 =
      [Event.auditWrite "c1" ConsentAction.purged "all", Event.contactDelete "c1",
       Event.auditWrite "c2" ConsentAction.purged "all",
       Event.auditWrite "c3" ConsentAction.purged "all", Event.contactDelete "c3"] :=
  ⟨batchPurge_results_ids env ids reason,
   batchPurge_purged_count env ids reason,
   batchPurge_failed_count env ids reason,
   batchPurge_failures_carry_message env ids reason,
   batchPurge_successes_processed env ids reason,
   by decide, by decide⟩

/-! ### Purge run pagination -/

/-- A store holding 101 contacts due for purge. -/
def dueList101 : List HubSpotContact :=
  (List.range 101).map (fun i => { id := "c" ++ toString i, properties := {} })

/-- Counterexample to C3: with 101 due contacts and every delete
succeeding, `executeScheduledPurges` processes only 100 of them — the
101st due contact (`c100`) gets no result entry and is never deleted, so
a single run IS limited to the first 100 due contacts. -/
theorem executeScheduledPurges_not_exhaustive :
    dueList101.length = 101 ∧
    (dueList101.map HubSpotContact.id).contains "c100" = true ∧
    (PurgeService.executeScheduledPurges (fun _ => none) dueList101).2.results.length = 100 ∧
    (((PurgeService.executeScheduledPurges (fun _ => none) dueList101).2.results.map
        PurgeService.PerContactResult.contactId).contains "c100") = false ∧
    ((PurgeService.executeScheduledPurges (fun _ => none) dueList101).1.contains
        (Event.contactDelete "c100")) = false := by
  refine ⟨by decide, by decide, by decide, by decide, by decide⟩

/-- C3 amended: `executeScheduledPurges` fetches a single search page of
at most 100 due contacts (`limit: 100`, no cursor loop) and processes
exactly those, in store order; a run handles min(|due|, 100) contacts,
not the full due set. -/
theorem executeScheduledPurges_first_page (env : PurgeService.DeleteEnv)
    (due : List HubSpotContact) :
    PurgeService.getContactsDueForPurge due = due.take 100 ∧
    ((PurgeService.executeScheduledPurges env due).2.results).map
        PurgeService.PerContactResult.contactId = (due.take 100).map HubSpotContact.id ∧
    (PurgeService.executeScheduledPurges env due).2.results.length = min due.length 100 := by
  refine ⟨rfl, batchPurge_results_ids env _ _, ?_⟩
  have h := congrArg List.length (batchPurge_results_ids env
    ((PurgeService.getContactsDueForPurge due).map HubSpotContact.id) "inactivity_24_months")
  rw [List.length_map] at h
  calc (PurgeService.executeScheduledPurges env due).2.results.length
      = ((PurgeService.getContactsDueForPurge due).map HubSpotContact.id).length := h
    _ = min due.length 100 := by
        simp [PurgeService.getContactsDueForPurge, Nat.min_comm]

/-! ### Re-consent run: batching and (absence of) audit emission -/

lemma chunksAux_flatten (n : Nat) (hn : 0 < n) :
    ∀ (fuel : Nat) (l : List α), l.length ≤ fuel → (chunksAux n fuel l).flatten = l := by
  intro fuel
  induction fuel with
  | zero =>
    intro l hl
    have hnil : l = [] := List.eq_nil_of_length_eq_zero (Nat.le_zero.mp hl)
    simp [hnil, chunksAux]
  | succ fuel ih =>
    intro l hl
    cases l with
    | nil => simp [chunksAux]
    | cons a t =>
      simp only [chunksAux, List.flatten_cons]
      rw [ih ((a :: t).drop n) (by
        have hd : ((a :: t).drop n).length = (a :: t).length - n := List.length_drop n (a :: t)
        have hlen : (a :: t).length = t.length + 1 := List.length_cons a t
        omega)]
      exact List.take_append_drop n (a :: t)

lemma chunks_flatten (n : Nat) (hn : 0 < n) (l : List α) :
    (chunks n l).flatten = l :=
  chunksAux_flatten n hn l.length l (Nat.le_refl _)

lemma chunksAux_sizes (n : Nat) :
    ∀ (fuel : Nat) (l : List α), ∀ ch ∈ chunksAux n fuel l, ch.length ≤ n := by
  intro fuel
  induction fuel with
  | zero => intro l ch hch; simp [chunksAux] at hch
  | succ fuel ih =>
    intro l ch hch
    cases l with
    | nil => simp [chunksAux] at hch
    | cons a t =>
      simp only [chunksAux, List.mem_cons] at hch
      rcases hch with rfl | hch
      · simp [Nat.min_le_left]
      · exact ih ((a :: t).drop n) ch hch

lemma chunks_sizes (n : Nat) (l : List α) : ∀ ch ∈ chunks n l, ch.length ≤ n :=
  chunksAux_sizes n l.length l

/-- Counterexample to C2: one contact requires re-consent (no consent date
on file) and is not yet flagged, so the run triggers it (`triggered = 1`),
but the run's entire event trace contains no audit write at all — no
`expired` audit record is emitted for the triggered contact. -/
theorem runReconsentCheck_emits_no_audit_counterexample :
    (ReconsentService.runReconsentCheck (fun _ => none) 24 30 0
        [{ id := "c0", properties := {} }]).2.triggered = 1 ∧
    ((ReconsentService.runReconsentCheck (fun _ => none) 24 30 0
        [{ id := "c0", properties := {} }]).1.filter Event.isAuditWrite) = [] := by
  exact ⟨rfl, rfl⟩

/-- C2 amended: the re-consent run batch-updates the contacts requiring
re-consent that are not already flagged (chunks of ≤ 100, jointly covering
exactly the triggered contacts, setting reconsent-required and pending
status), but emits NO audit record; the `expired` audit record is written
only by the single-contact `triggerReconsentWorkflow` path, which the run
does not call. -/
theorem runReconsentCheck_batch_without_audit (jsParse : String → Option Int)
    (em gd : Nat) (now : Int) (population : List HubSpotContact)
    (cid reason : String) :
    (ReconsentService.runReconsentCheck jsParse em gd now population).1 =
      (chunks 100
        (((ReconsentService.getContactsRequiringReconsent jsParse em gd now population).filter
            (fun c => c.properties.reconsent_required ≠ some "yes")).map
          (fun c => (c.id, ReconsentService.reconsentBatchProps)))).map Event.batchUpdate ∧
    (∀ e ∈ (ReconsentService.runReconsentCheck jsParse em gd now population).1,
      e.isAuditWrite = false) ∧
    (∀ ch ∈ chunks 100
        (((ReconsentService.getContactsRequiringReconsent jsParse em gd now population).filter
            (fun c => c.properties.reconsent_required ≠ some "yes")).map
          (fun c => (c.id, ReconsentService.reconsentBatchProps))), ch.length ≤ 100) ∧
    (chunks 100
        (((ReconsentService.getContactsRequiringReconsent jsParse em gd now population).filter
            (fun c => c.properties.reconsent_required ≠ some "yes")).map
          (fun c => (c.id, ReconsentService.reconsentBatchProps)))).flatten =
      ((ReconsentService.getContactsRequiringReconsent jsParse em gd now population).filter
          (fun c => c.properties.reconsent_required ≠ some "yes")).map
        (fun c => (c.id, ReconsentService.reconsentBatchProps)) ∧
    (ReconsentService.runReconsentCheck jsParse em gd now population).2.triggered =
      ((ReconsentService.getContactsRequiringReconsent jsParse em gd now population).filter
        (fun c => c.properties.reconsent_required ≠ some "yes")).length ∧
    ReconsentService.triggerReconsentWorkflow cid reason =
      [Event.contactUpdate cid ReconsentService.reconsentBatchProps,
       Event.auditWrite cid ConsentAction.expired "all"] := by
  refine ⟨rfl, ?_, chunks_sizes 100 _, chunks_flatten 100 (by omega) _, rfl, rfl⟩
  intro e he
  have he' : e ∈ (chunks 100
      (((ReconsentService.getContactsRequiringReconsent jsParse em gd now population).filter
          (fun c => c.properties.reconsent_required ≠ some "yes")).map
        (fun c => (c.id, ReconsentService.reconsentBatchProps)))).map Event.batchUpdate := he
  obtain ⟨inputs, _, rfl⟩ := List.mem_map.mp he'
  rfl

/-! ### Inactivity action ladder -/

/-- C4: for every (daysSinceActivity, isInactive) pair the ladder returns
exactly one of the four actions {no_action, send_reminder, flag_for_review,
schedule_purge}, following the strict priority order (not inactive →
no_action; > thresholdDays → schedule_purge; > thresholdDays − 30 →
flag_for_review; > thresholdDays − 60 → send_reminder; else no_action,
with thresholdDays = inactivityThresholdMonths × 30); for fixed isInactive
the urgency is monotonically non-decreasing in daysSinceActivity; and
daysSinceActivity = 700 with thresholdDays = 720 yields flag_for_review. -/
theorem determineAction_ladder (tm : Nat) (d : Option Nat) (b : Bool)
    (n₁ n₂ : Nat) (h : n₁ ≤ n₂) :
    (InactivityService.determineAction tm d b ∈
      [InactivityAction.no_action, InactivityAction.send_reminder,
       InactivityAction.flag_for_review, InactivityAction.schedule_purge]) ∧
    (b = false → InactivityService.determineAction tm d b = InactivityAction.no_action) ∧
    (InactivityService.determineAction tm (some n₁) true =
      if (n₁ : Int) > (tm : Int) * 30 then InactivityAction.schedule_purge
      else if (n₁ : Int) > (tm : Int) * 30 - 30 then InactivityAction.flag_for_review
      else if (n₁ : Int) > (tm : Int) * 30 - 60 then InactivityAction.send_reminder
      else InactivityAction.no_action) ∧
    actionRank (InactivityService.determineAction tm (some n₁) b) ≤
      actionRank (InactivityService.determineAction tm (some n₂) b) ∧
    actionRank (InactivityService.determineAction tm (some n₁) b) ≤
      actionRank (InactivityService.determineAction tm none b) ∧
    InactivityService.determineAction 24 (some 700) true = InactivityAction.flag_for_review := by
  have hcast : (n₁ : Int) ≤ (n₂ : Int) := by exact_mod_cast h
  refine ⟨?_, ?_, ?_, ?_, ?_, by decide⟩
  · cases b with
    | false => cases d <;> simp [InactivityService.determineAction]
    | true =>
      cases d with
      | none => simp [InactivityService.determineAction, InactivityService.edaysGT]
      | some n =>
        simp only [InactivityService.determineAction, InactivityService.edaysGT,
          Bool.not_true, Bool.false_eq_true, if_false, decide_eq_true_eq]
        split_ifs <;> simp
  · intro hb; subst hb; rfl
  · simp [InactivityService.determineAction, InactivityService.edaysGT]
  · cases b with
    | false => simp [InactivityService.determineAction]
    | true =>
      simp only [InactivityService.determineAction, InactivityService.edaysGT,
        Bool.not_true, Bool.false_eq_true, if_false, decide_eq_true_eq]
      split_ifs <;> simp_all [actionRank] <;> omega
  · cases b with
    | false => simp [InactivityService.determineAction]
    | true =>
      simp only [InactivityService.determineAction, InactivityService.edaysGT,
        Bool.not_true, Bool.false_eq_true, if_false, decide_eq_true_eq, if_true]
      split_ifs <;> simp [actionRank]

/-- Witness for C4 at the spec's scenario (700 days, 24-month threshold)
and a concrete pair of inactivity durations. -/
theorem determineAction_ladder_witness :
    (1 : Nat) ≤ 2 ∧
    InactivityService.determineAction 24 (some 700) true = InactivityAction.flag_for_review :=
  ⟨by decide, (determineAction_ladder 24 (some 700) true 1 2 (by decide)).2.2.2.2.2⟩

/-! ### Consent expiry predicate -/

/-- C5: `isConsentExpiring(consentDate, expiryMonths, graceDays)` is true
iff the consent date is null or
`calculateConsentExpiry(consentDate, expiryMonths) ≤ now + graceDays`
days; in particular it is unconditionally true for a null consent date. -/
theorem isConsentExpiring_iff (consentDate : Option Int)
    (expiryMonths gracePeriodDays now : Int) :
    (DateUtils.isConsentExpiring consentDate expiryMonths gracePeriodDays now = true ↔
      consentDate = none ∨
        ∃ cd, consentDate = some cd ∧
          DateUtils.calculateConsentExpiry cd expiryMonths ≤
            DateUtils.addDays now gracePeriodDays) ∧
    DateUtils.isConsentExpiring none expiryMonths gracePeriodDays now = true := by
  refine ⟨?_, rfl⟩
  cases consentDate with
  | none => simp [DateUtils.isConsentExpiring]
  | some cd => simp [DateUtils.isConsentExpiring]

/-! ### Compliance score -/

/-- C9: the compliance score is the weighted sum
0.4·coverage + 0.25·(100 − reconsentPct) + 0.2·(100 − inactivePct)
+ 0.15·(100 − purgePendingPct) with each percentage count/total × 100,
all percentages taken as 0 on an empty population, where the score is
still well defined (value 60). -/
theorem complianceScore_formula (d : Dashboard.DashboardData) :
    Dashboard.calculateComplianceScore d = Dashboard.specComplianceScore d ∧
    (d.totalContacts = 0 → Dashboard.calculateComplianceScore d = 60) := by
  constructor
  · by_cases h : d.totalContacts = 0
    · simp [Dashboard.calculateComplianceScore, Dashboard.specComplianceScore,
        Dashboard.consentCoverage, h]
      norm_num
    · have hpos : 0 < d.totalContacts := Nat.pos_of_ne_zero h
      simp only [Dashboard.calculateComplianceScore, Dashboard.specComplianceScore,
        Dashboard.consentCoverage, if_pos hpos, if_neg h]
      ring
  · intro h
    simp [Dashboard.calculateComplianceScore, Dashboard.consentCoverage, h]
    norm_num

/-- Witness for C9's empty-population clause at the all-zero dashboard. -/
theorem complianceScore_formula_witness :
    Dashboard.DashboardData.totalContacts
        { totalContacts := 0, contactsWithConsent := 0, contactsRequiringReconsent := 0,
          contactsInactive := 0, contactsScheduledForPurge := 0 } = 0 ∧
    Dashboard.calculateComplianceScore
        { totalContacts := 0, contactsWithConsent := 0, contactsRequiringReconsent := 0,
          contactsInactive := 0, contactsScheduledForPurge := 0 } = 60 :=
  ⟨rfl,
   (complianceScore_formula
     { totalContacts := 0, contactsWithConsent := 0, contactsRequiringReconsent := 0,
       contactsInactive := 0, contactsScheduledForPurge := 0 }).2 rfl⟩

/-! ### Totality of the per-contact checks under unparseable dates -/

/-- C10: `parseDate` yields null for an absent, empty, or unparseable date
string, and both per-contact checks treat an unparseable timestamp exactly
like an absent one: a contact with no parseable `last_activity_date` is
classified inactive with `schedule_purge` recommended and the sentinel
−1 reported, and a contact with no parseable consent date requires
re-consent with reason `consent_expiry` and null expiry data. -/
theorem unparseable_dates_total (jsParse : String → Option Int)
    (tm em gd : Nat) (now : Int) (s : String) (c₁ c₂ : HubSpotContact)
    (hs : jsParse s = none)
    (h₁ : DateUtils.parseDate jsParse c₁.properties.last_activity_date = none)
    (h₂ : DateUtils.parseDate jsParse c₂.properties.gdpr_consent_date = none) :
    DateUtils.parseDate jsParse none = none ∧
    DateUtils.parseDate jsParse (some "") = none ∧
    DateUtils.parseDate jsParse (some s) = none ∧
    InactivityService.checkContactInactivity jsParse tm now c₁ =
      { contactId := c₁.id
        email := c₁.properties.email.getD ""
        lastActivityDate := none
        daysSinceActivity := -1
        isInactive := true
        recommendedAction := InactivityAction.schedule_purge } ∧
    ReconsentService.checkReconsentRequired jsParse em gd now c₂ =
      { required := true
        reason := some "consent_expiry"
        expiryDate := none
        daysUntilExpiry := none } := by
  refine ⟨rfl, rfl, ?_, ?_, ?_⟩
  · simp only [DateUtils.parseDate]
    split_ifs <;> simp [hs]
  · simp [InactivityService.checkContactInactivity, h₁, DateUtils.isInactive,
      InactivityService.determineAction, InactivityService.edaysGT]
  · simp [ReconsentService.checkReconsentRequired, h₂]

/-- Witness for C10: a parser that accepts nothing, a garbage string, and
contacts whose activity/consent dates are unparseable strings. -/
theorem unparseable_dates_total_witness :
    DateUtils.parseDate (fun _ => none) (some "not-a-date") = none ∧
    InactivityService.checkContactInactivity (fun _ => none) 24 0
        { id := "c1", properties := { last_activity_date := some "not-a-date" } } =
      { contactId := "c1"
        email := ""
        lastActivityDate := none
        daysSinceActivity := -1
        isInactive := true
        recommendedAction := InactivityAction.schedule_purge } ∧
    ReconsentService.checkReconsentRequired (fun _ => none) 24 30 0
        { id := "c2", properties := { gdpr_consent_date := some "????" } } =
      { required := true
        reason := some "consent_expiry"
        expiryDate := none
        daysUntilExpiry := none } := by
  obtain ⟨_, _, p3, p4, p5⟩ := unparseable_dates_total (fun _ => none) 24 24 30 0
    "not-a-date"
    { id := "c1", properties := { last_activity_date := some "not-a-date" } }
    { id := "c2", properties := { gdpr_consent_date := some "????" } }
    rfl rfl rfl
  exact ⟨p3, p4, p5⟩

/-! ### Audit mirror isolation -/

/-- C7: `recordConsentChange` is insulated from the external audit-mirror
write: for ANY mirror environment — including ones whose contact read or
update throws — the call completes, appends the freshly built record to
the in-process per-contact log (other contacts untouched), returns that
record, and its entire result is independent of the mirror outcome. -/
theorem recordConsentChange_mirror_isolated (env envAlt : AuditService.MirrorEnv)
    (freshId : String) (now : Int) (log : AuditService.AuditLog)
    (contactId : String) (action : ConsentAction) (category : String)
    (prev : Option Bool) (newV : Bool) (source : String) (notes : Option String) :
    (AuditService.recordConsentChange env freshId now log contactId action category
        prev newV source notes).2 =
      { id := freshId, contactId := contactId, action := action, category := category,
        previousValue := prev, newValue := newV, source := source, timestamp := now,
        notes := notes } ∧
    (AuditService.recordConsentChange env freshId now log contactId action category
        prev newV source notes).1 contactId =
      log contactId ++
        [(AuditService.recordConsentChange env freshId now log contactId action category
          prev newV source notes).2] ∧
    (∀ c, c ≠ contactId →
      (AuditService.recordConsentChange env freshId now log contactId action category
        prev newV source notes).1 c = log c) ∧
    AuditService.recordConsentChange env freshId now log contactId action category
        prev newV source notes =
      AuditService.recordConsentChange envAlt freshId now log contactId action category
        prev newV source notes := by
  refine ⟨rfl, by simp [AuditService.recordConsentChange], ?_, rfl⟩
  intro c hc
  simp [AuditService.recordConsentChange, hc]

/-! ### Grant-consent entry point -/

lemma objGet_map_set_ne (k k' v : String) (h : k' ≠ k) :
    ∀ props : List (String × String),
      ConsentRoutes.objGet (props.map (fun p => if p.1 = k then (k, v) else p)) k' =
        ConsentRoutes.objGet props k' := by
  intro props
  induction props with
  | nil => rfl
  | cons a t ih =>
    by_cases ha : a.1 = k
    · simp only [ConsentRoutes.objGet, List.map_cons, if_pos ha]
      rw [List.find?_cons_of_neg _ (by simpa using Ne.symm h),
        List.find?_cons_of_neg _ (by simpa [ha] using Ne.symm h)]
      exact ih
    · simp only [ConsentRoutes.objGet, List.map_cons, if_neg ha]
      by_cases hk' : a.1 = k'
      · rw [List.find?_cons_of_pos _ (by simpa using hk'),
          List.find?_cons_of_pos _ (by simpa using hk')]
      · rw [List.find?_cons_of_neg _ (by simpa using hk'),
          List.find?_cons_of_neg _ (by simpa using hk')]
        exact ih

lemma objGet_append_single_ne (props : List (String × String)) (k k' v : String)
    (h : k' ≠ k) :
    ConsentRoutes.objGet (props ++ [(k, v)]) k' = ConsentRoutes.objGet props k' := by
  induction props with
  | nil =>
    simp only [List.nil_append, ConsentRoutes.objGet]
    rw [List.find?_cons_of_neg _ (by simpa using Ne.symm h)]
  | cons a t ih =>
    by_cases hk' : a.1 = k'
    · simp only [ConsentRoutes.objGet, List.cons_append]
      rw [List.find?_cons_of_pos _ (by simpa using hk'),
        List.find?_cons_of_pos _ (by simpa using hk')]
    · simp only [ConsentRoutes.objGet, List.cons_append]
      rw [List.find?_cons_of_neg _ (by simpa using hk'),
        List.find?_cons_of_neg _ (by simpa using hk')]
      exact ih

lemma objGet_objSet_ne (props : List (String × String)) (k k' v : String)
    (h : k' ≠ k) :
    ConsentRoutes.objGet (ConsentRoutes.objSet props k v) k' =
      ConsentRoutes.objGet props k' := by
  unfold ConsentRoutes.objSet
  split_ifs with hany
  · exact objGet_map_set_ne k k' v h props
  · exact objGet_append_single_ne props k k' v h

lemma grantLoop_events (cid src : String) :
    ∀ (cats : List String) (props : List (String × String)),
      (ConsentRoutes.grantLoop cid src cats props).2 =
        cats.map (fun c => Event.auditWrite cid ConsentAction.granted c) := by
  intro cats
  induction cats with
  | nil => intro props; rfl
  | cons c t ih =>
    intro props
    simp [ConsentRoutes.grantLoop, ih]

lemma grantLoop_preserves_lookup (cid src k : String) :
    ∀ (cats : List String) (props : List (String × String)),
      (∀ c ∈ cats, k ≠ ConsentRoutes.categoryKey c) →
      ConsentRoutes.objGet (ConsentRoutes.grantLoop cid src cats props).1 k =
        ConsentRoutes.objGet props k := by
  intro cats
  induction cats with
  | nil => intro props _; rfl
  | cons c t ih =>
    intro props h
    simp only [ConsentRoutes.grantLoop]
    rw [ih _ (fun c' hc' => h c' (List.mem_cons_of_mem c hc'))]
    exact objGet_objSet_ne props (ConsentRoutes.categoryKey c) k "granted"
      (h c (List.mem_cons_self c t))

/-- C8: granting consent for a list of categories emits exactly one
`granted` audit record per requested category (in request order) followed
by the single contact update; the written property object carries
`gdpr_consent_expiry_date = fmt(addMonths(now, expiryMonths))` (calendar
month addition of the configured expiry) and `reconsent_required = "no"`,
provided no category's derived key collides with those two base keys. -/
theorem grantConsent_per_category_audit (fmt : Int → String) (em : Nat)
    (now : Int) (cid : String) (cats : List String) (lb src : String)
    (h : ∀ c ∈ cats, ConsentRoutes.categoryKey c ≠ "gdpr_consent_expiry_date" ∧
      ConsentRoutes.categoryKey c ≠ "reconsent_required") :
    ConsentRoutes.grantConsent fmt em now cid cats lb src =
      cats.map (fun c => Event.auditWrite cid ConsentAction.granted c) ++
        [Event.contactUpdate cid (ConsentRoutes.grantLoop cid src cats
          (ConsentRoutes.grantBaseProps fmt em now lb src)).1] ∧
    ConsentRoutes.objGet (ConsentRoutes.grantLoop cid src cats
        (ConsentRoutes.grantBaseProps fmt em now lb src)).1 "gdpr_consent_expiry_date" =
      some (fmt (DateUtils.addMonths now (em : Int))) ∧
    ConsentRoutes.objGet (ConsentRoutes.grantLoop cid src cats
        (ConsentRoutes.grantBaseProps fmt em now lb src)).1 "reconsent_required" =
      some "no" := by
  refine ⟨?_, ?_, ?_⟩
  · simp only [ConsentRoutes.grantConsent]
    rw [grantLoop_events]
  · rw [grantLoop_preserves_lookup cid src _ cats _
      (fun c hc => ((h c hc).1).symm)]
    rfl
  · rw [grantLoop_preserves_lookup cid src _ cats _
      (fun c hc => ((h c hc).2).symm)]
    rfl

/-- Witness for C8 at the spec's scenario: categories [marketing,
analytics], with `toString` standing in for the ISO formatter. -/
theorem grantConsent_per_category_audit_witness :
    ConsentRoutes.grantConsent (fun t => toString t) 24 0 "c1"
        ["marketing", "analytics"] "consent" "api" =
      [Event.auditWrite "c1" ConsentAction.granted "marketing",
       Event.auditWrite "c1" ConsentAction.granted "analytics",
       Event.contactUpdate "c1" (ConsentRoutes.grantLoop "c1" "api"
         ["marketing", "analytics"]
         (ConsentRoutes.grantBaseProps (fun t => toString t) 24 0 "consent" "api")).1] ∧
    ConsentRoutes.objGet (ConsentRoutes.grantLoop "c1" "api" ["marketing", "analytics"]
        (ConsentRoutes.grantBaseProps (fun t => toString t) 24 0 "consent" "api")).1
        "gdpr_consent_expiry_date" =
      some (toString (DateUtils.addMonths 0 24)) ∧
    ConsentRoutes.objGet (ConsentRoutes.grantLoop "c1" "api" ["marketing", "analytics"]
        (ConsentRoutes.grantBaseProps (fun t => toString t) 24 0 "consent" "api")).1
        "reconsent_required" =
      some "no" :=
  grantConsent_per_category_audit (fun t => toString t) 24 0 "c1"
    ["marketing", "analytics"] "consent" "api" (by decide)
